import Mathlib

/-!
Shallow embedding of the voxel-grid gas-diffusion core of `src/grid.rs`.

The Rust code stores pressures, velocities and colors as `f32`/`Vec3`/`Vec4`.
Here those scalars are modelled as exact rationals (`ℚ`): every claim below is
about the algebraic structure of the update rules, which the spec itself states
"up to floating-point rounding".  The grid `Vec<Vec<Vec<Atom>>>` (cubic, side
`SIZE = 32`) is modelled as a total function from integer coordinates to atoms;
all theorems restrict attention to in-bounds coordinates.
-/

namespace GameGrid

/-- Rational stand-in for glam's `Vec3` (the `f32` vector used for velocities). -/
structure QVec3 where
  x : ℚ
  y : ℚ
  z : ℚ
deriving DecidableEq

/-- Rational stand-in for glam's `Vec4` (used for solid colors). -/
structure QVec4 where
  x : ℚ
  y : ℚ
  z : ℚ
  w : ℚ
deriving DecidableEq

/-- `Vec3::ZERO`. -/
def QVec3.zero : QVec3 := ⟨0, 0, 0⟩

/-- Componentwise vector addition (`Vec3 + Vec3`, used by `velocity_total += gas.1`). -/
def QVec3.add (a b : QVec3) : QVec3 := ⟨a.x + b.x, a.y + b.y, a.z + b.z⟩

/-- Scalar multiplication `Vec3 * f32` (componentwise, as in `a.1 * a.0`). -/
def QVec3.smul (a : QVec3) (s : ℚ) : QVec3 := ⟨a.x * s, a.y * s, a.z * s⟩

/-- Scalar division `Vec3 / f32` (componentwise, as in `velocity_total / gases.len()`). -/
def QVec3.divScalar (a : QVec3) (s : ℚ) : QVec3 := ⟨a.x / s, a.y / s, a.z / s⟩

/-- glam's `length_squared`: the dot product of the vector with itself. -/
def QVec3.lengthSq (v : QVec3) : ℚ := v.x * v.x + v.y * v.y + v.z * v.z

/-- glam's `normalize`: the vector divided by its length.  `Rat.sqrt` agrees with
the real square root exactly when the squared length is a perfect rational square,
which is the case at every concrete input used in this development (axis-aligned
unit vectors), where the `f32` computation is also exact. -/
def QVec3.normalize (v : QVec3) : QVec3 :=
  ⟨v.x / Rat.sqrt v.lengthSq, v.y / Rat.sqrt v.lengthSq, v.z / Rat.sqrt v.lengthSq⟩

/-- The `Atom` enum of `grid.rs`: `Solid(Vec4)`, `Gas((f32, Vec3))`, `GasSource(Vec3)`. -/
inductive Atom where
  | Solid (color : QVec4)
  | Gas (payload : ℚ × QVec3)
  | GasSource (dir : QVec3)
deriving DecidableEq

/-- Discriminates the `Gas` variant (the `if let Atom::Gas(..)` pattern tests). -/
def Atom.isGas : Atom → Bool
  | Atom.Gas _ => true
  | _ => false

/-- The payload of a `Gas` atom, `none` for the other variants. -/
def Atom.gasPayload : Atom → Option (ℚ × QVec3)
  | Atom.Gas pay => some pay
  | _ => none

/-- `const SIZE: usize = 32`. -/
def SIZE : ℕ := 32

/-- `const SPREAD_FREQUENCY: u64 = 2`. -/
def SPREAD_FREQUENCY : ℕ := 2

/-- A cell coordinate `(x, y, z)`, the model of `UVec3` grid indices. -/
abbrev Pos := ℕ × ℕ × ℕ

/-- The model of the dense array `atoms: Vec<Vec<Vec<Atom>>>`, as a total function;
only coordinates below `SIZE` correspond to real cells. -/
abbrev Grid3 := Pos → Atom

/-- Writing one cell of the grid (`self.atoms[x][y][z] = a`). -/
def update3 (g : Grid3) (q : Pos) (a : Atom) : Grid3 :=
  fun r => if r = q then a else g r

/-- Writing the same atom to a list of cells, in order. -/
def writeAll (ps : List Pos) (v : Atom) (g : Grid3) : Grid3 :=
  ps.foldl (fun h q => update3 h q v) g

/-- `sum_gas` from `grid.rs`: pressure is the plain sum, velocity is the
pressure-weighted sum `a.1 * a.0 + b.1 * b.0` (no renormalization). -/
def sum_gas (a b : ℚ × QVec3) : Atom :=
  Atom.Gas (a.1 + b.1, QVec3.add (a.2.smul a.1) (b.2.smul b.1))

/-- `Grid::positions()`: every in-bounds coordinate, x outer, y middle, z inner. -/
def allPositions : List Pos :=
  (List.range SIZE).flatMap fun x =>
    (List.range SIZE).flatMap fun y =>
      (List.range SIZE).map fun z => (x, y, z)

/-- The eight cells of the 2×2×2 block at origin `(px, py, pz)`, in the
`dx`/`dy`/`dz` loop order of `mut_gases_2x2x2`. -/
def block_positions (px py pz : ℕ) : List Pos :=
  [(px, py, pz), (px, py, pz + 1), (px, py + 1, pz), (px, py + 1, pz + 1),
   (px + 1, py, pz), (px + 1, py, pz + 1), (px + 1, py + 1, pz), (px + 1, py + 1, pz + 1)]

/-- `mut_gases_2x2x2`: the `Gas` payloads of the block's cells, in loop order.
(The Rust function returns mutable references; the model returns the values read,
and `reach_local_equilibrium` below performs the write-back explicitly.) -/
def mut_gases_2x2x2 (g : Grid3) (px py pz : ℕ) : List (ℚ × QVec3) :=
  (block_positions px py pz).filterMap fun q => (g q).gasPayload

/-- The closure `reach_local_equilibrium` inside `spread_gas`: sum the pressures
and velocities of the block's Gas cells, divide both by the Gas count, and write
the averages back to exactly those Gas cells.  (The `debug_assert_ne!` on the
count is debug-only and compiles away in release builds; the model is total.) -/
def reach_local_equilibrium (g : Grid3) (px py pz : ℕ) : Grid3 :=
  let gases := mut_gases_2x2x2 g px py pz
  let pressure_total := (gases.map Prod.fst).sum
  let velocity_total := (gases.map Prod.snd).foldl QVec3.add QVec3.zero
  let divided_total_pressure := pressure_total / (gases.length : ℚ)
  let divided_total_velocity := QVec3.divScalar velocity_total (gases.length : ℚ)
  writeAll ((block_positions px py pz).filter fun q => (g q).isGas)
    (Atom.Gas (divided_total_pressure, divided_total_velocity)) g

/-- The cells written by the `apply_edge_vacuum` loops: for all `a, b < SIZE`
the six cells `[a][b][0]`, `[a][0][b]`, `[0][a][b]`, `[a][b][s]`, `[a][s][b]`,
`[s][a][b]` with `s = SIZE - 1`, in loop order. -/
def edge_positions : List Pos :=
  (List.range SIZE).flatMap fun a =>
    (List.range SIZE).flatMap fun b =>
      [(a, b, 0), (a, 0, b), (0, a, b),
       (a, b, SIZE - 1), (a, SIZE - 1, b), (SIZE - 1, a, b)]

/-- `apply_edge_vacuum`: overwrite every cell listed by the boundary loops with a
zero-pressure, zero-velocity gas. -/
def apply_edge_vacuum (g : Grid3) : Grid3 :=
  writeAll edge_positions (Atom.Gas (0, QVec3.zero)) g

/-- `usize::MAX` on a 64-bit target, the saturation bound of `f32 as usize`. -/
def USIZE_MAX : ℕ := 2 ^ 64 - 1

/-- Rust's `f32 as usize` cast: truncation toward zero, saturating at `0` for
negative inputs and at `usize::MAX` above (for nonnegative inputs truncation
toward zero coincides with the floor). -/
def qToUsize (q : ℚ) : ℕ :=
  if q < 0 then 0 else min (Int.toNat ⌊q⌋) USIZE_MAX

/-- glam's `Vec3::as_usizevec3`: the componentwise `as usize` cast. -/
def QVec3.as_usizevec3 (v : QVec3) : Pos :=
  (qToUsize v.x, qToUsize v.y, qToUsize v.z)

/-- The destination-cell formula shared by `simulate_gas_velocity` and
`step_gas_source`: `(pos.as_vec3() + Vec3::splat(0.5) + v.normalize()).as_usizevec3()`. -/
def advect_dest (p : Pos) (v : QVec3) : Pos :=
  QVec3.as_usizevec3
    ⟨(p.1 : ℚ) + 1 / 2 + v.normalize.x,
     (p.2.1 : ℚ) + 1 / 2 + v.normalize.y,
     (p.2.2 : ℚ) + 1 / 2 + v.normalize.z⟩

/-- The `continue` guard of `simulate_gas_velocity`: a cell participates exactly
when it holds gas whose squared velocity is not below `0.001`. -/
def fast_gas : Atom → Bool
  | Atom.Gas pay => if pay.2.lengthSq < 1 / 1000 then false else true
  | _ => false

/-- `gases_to_zero`: the source cells collected in the first loop of
`simulate_gas_velocity` (every gas cell that passes the velocity threshold). -/
def gases_to_zero (g : Grid3) : List Pos :=
  allPositions.filter fun p => fast_gas (g p)

/-- `gases_to_add`: the `(dst_pos, payload)` transfers collected in the first
loop of `simulate_gas_velocity`: a transfer is recorded only when the computed
destination is within bounds and currently holds `Gas`. -/
def gases_to_add (g : Grid3) : List (Pos × (ℚ × QVec3)) :=
  allPositions.filterMap fun p =>
    match g p with
    | Atom.Gas pay =>
      if pay.2.lengthSq < 1 / 1000 then none
      else
        if (advect_dest p pay.2).1 < SIZE ∧ (advect_dest p pay.2).2.1 < SIZE ∧
            (advect_dest p pay.2).2.2 < SIZE then
          match g (advect_dest p pay.2) with
          | Atom.Gas _ => some (advect_dest p pay.2, pay)
          | _ => none
        else none
    | _ => none

/-- The second loop of `simulate_gas_velocity`: zero every collected source cell. -/
def zero_pass (g : Grid3) : Grid3 :=
  writeAll (gases_to_zero g) (Atom.Gas (0, QVec3.zero)) g

/-- The guarded merge `if let Gas(dst) = atoms[d] { atoms[d] = sum_gas(dst, pay) }`,
reading the current (already partially updated) grid. -/
def add_gas_at (h : Grid3) (d : Pos) (pay : ℚ × QVec3) : Grid3 :=
  match h d with
  | Atom.Gas dpay => update3 h d (sum_gas dpay pay)
  | _ => h

/-- The third loop of `simulate_gas_velocity`: replay the collected transfers in
order against the zeroed grid. -/
def add_pass (h : Grid3) (l : List (Pos × (ℚ × QVec3))) : Grid3 :=
  l.foldl (fun h2 e => add_gas_at h2 e.1 e.2) h

/-- `simulate_gas_velocity`: collect, zero the sources, then apply the transfers. -/
def simulate_gas_velocity (g : Grid3) : Grid3 :=
  add_pass (zero_pass g) (gases_to_add g)

/-- `const SOURCE_PRESSURE: f32 = 1.0`. -/
def SOURCE_PRESSURE : ℚ := 1

/-- The `sources` list of `step_gas_source`: every `GasSource` cell with its
emission direction, in `positions()` order. -/
def sources (g : Grid3) : List (Pos × QVec3) :=
  allPositions.filterMap fun p =>
    match g p with
    | Atom.GasSource v => some (p, v)
    | _ => none

/-- `step_gas_source`: for each source, merge `(SOURCE_PRESSURE, dir)` into the
adjacent cell in the emission direction if that cell currently holds gas. -/
def step_gas_source (g : Grid3) : Grid3 :=
  (sources g).foldl (fun h s => add_gas_at h (advect_dest s.1 s.2) (SOURCE_PRESSURE, s.2)) g

/-- One checkerboard pass of `spread_gas`: `reach_local_equilibrium` on every
block origin from `xs` on each axis (x outer, y middle, z inner, as in the
nested `step_by(2)` loops). -/
def spread_pass (xs : List ℕ) (g : Grid3) : Grid3 :=
  xs.foldl (fun hx x =>
    xs.foldl (fun hy y =>
      xs.foldl (fun hz z => reach_local_equilibrium hz x y z) hy) hx) g

/-- The even-aligned block origins `(0..SIZE).step_by(2)` = 0, 2, …, 30. -/
def even_starts : List ℕ := List.range' 0 16 2

/-- The odd-aligned block origins `(1..SIZE-1).step_by(2)` = 1, 3, …, 29. -/
def odd_starts : List ℕ := List.range' 1 15 2

/-- `spread_gas`: run the even-aligned pass when `step_counter % (SPREAD_FREQUENCY*2) == 0`,
the odd-aligned pass when it equals `SPREAD_FREQUENCY`, and nothing otherwise. -/
def spread_gas (g : Grid3) (step_counter : ℕ) : Grid3 :=
  if step_counter % (SPREAD_FREQUENCY * 2) = 0 then spread_pass even_starts g
  else if step_counter % (SPREAD_FREQUENCY * 2) = SPREAD_FREQUENCY then spread_pass odd_starts g
  else g

/-- `Grid::step`: the four phases in order, then the wrapping increment of the
`u64` step counter. -/
def step (g : Grid3) (step_counter : ℕ) : Grid3 × ℕ :=
  (apply_edge_vacuum (spread_gas (step_gas_source (simulate_gas_velocity g)) step_counter),
   (step_counter + 1) % 2 ^ 64)

/-- The default grid built by the `Err` branch of `Grid::load`: all cells
`Gas((0.0, Vec3::ZERO))`, then five inset corner cells overwritten with solids,
in source order. -/
def default_atoms : Grid3 :=
  update3
    (update3
      (update3
        (update3
          (update3 (fun _ => Atom.Gas (0, QVec3.zero))
            (1, 1, 1) (Atom.Solid ⟨1/2, 1/2, 1/2, 1⟩))
          (SIZE - 2, 1, 1) (Atom.Solid ⟨1, 0, 0, 1⟩))
        (1, SIZE - 2, 1) (Atom.Solid ⟨0, 1, 0, 1⟩))
      (1, 1, SIZE - 2) (Atom.Solid ⟨0, 0, 1, 1⟩))
    (SIZE - 2, SIZE - 2, SIZE - 2) (Atom.Solid ⟨1, 1, 1, 1⟩)

/-- `Grid::load`: the match on `load_inner()`.  The file read and JSON parse are
external I/O; their outcome is abstracted into an `Option` (`none` for any
failure — missing file, unreadable content, malformed JSON).  No error leaves
the function: both branches produce a grid. -/
def load (loaded : Option Grid3) : Grid3 :=
  match loaded with
  | some atoms => atoms
  | none => default_atoms

/-- Concrete all-solid grid used as a test input. -/
def gAllSolid : Grid3 := fun _ => Atom.Solid ⟨1/2, 1/2, 1/2, 1⟩

/-- Concrete grid: one pressurized gas cell inside the block at the origin,
one solid cell, vacuum elsewhere. -/
def gBlockTest : Grid3 := fun p =>
  if p = ((0, 0, 1) : Pos) then Atom.Solid ⟨1/2, 1/2, 1/2, 1⟩
  else if p = ((0, 0, 0) : Pos) then Atom.Gas (8, QVec3.zero)
  else Atom.Gas (0, QVec3.zero)

/-- Concrete grid: a single moving gas cell at (5,5,5) in an otherwise solid grid. -/
def gMoveTest : Grid3 := fun p =>
  if p = ((5, 5, 5) : Pos) then Atom.Gas (1, ⟨1, 0, 0⟩)
  else Atom.Solid ⟨1/2, 1/2, 1/2, 1⟩

/-- The number of coordinates of `(x, y, z)` that sit at an extreme (0 or `SIZE-1`). -/
def extremeCount (x y z : ℕ) : ℕ :=
  (if x = 0 ∨ x = SIZE - 1 then 1 else 0) +
  (if y = 0 ∨ y = SIZE - 1 then 1 else 0) +
  (if z = 0 ∨ z = SIZE - 1 then 1 else 0)

end GameGrid

namespace GameGrid

theorem update3_apply (g : Grid3) (q : Pos) (a : Atom) (r : Pos) :
    update3 g q a r = if r = q then a else g r := rfl

theorem writeAll_apply (ps : List Pos) (v : Atom) (g : Grid3) (q : Pos) :
    writeAll ps v g q = if q ∈ ps then v else g q := by
  induction ps generalizing g with
  | nil => simp [writeAll]
  | cons p ps ih =>
    show writeAll ps v (update3 g p v) q = _
    rw [ih, update3_apply]
    by_cases h1 : q ∈ ps
    · simp [h1]
    · by_cases h2 : q = p <;> simp [h1, h2]

theorem Atom.isGas_iff (a : Atom) : a.isGas = true ↔ ∃ pay, a = Atom.Gas pay := by
  cases a <;> simp [Atom.isGas]

theorem Atom.gasPayload_of_not_gas (a : Atom) (h : a.isGas = false) : a.gasPayload = none := by
  cases a <;> simp_all [Atom.isGas, Atom.gasPayload]

theorem Atom.gasPayload_gas (pay : ℚ × QVec3) : (Atom.Gas pay).gasPayload = some pay := rfl

theorem mem_allPositions (q : Pos) :
    q ∈ allPositions ↔ q.1 < SIZE ∧ q.2.1 < SIZE ∧ q.2.2 < SIZE := by
  obtain ⟨x, y, z⟩ := q
  simp only [allPositions, List.mem_flatMap, List.mem_map, List.mem_range, Prod.mk.injEq]
  constructor
  · rintro ⟨a, ha, b, hb, c, hc, rfl, rfl, rfl⟩
    exact ⟨ha, hb, hc⟩
  · rintro ⟨hx, hy, hz⟩
    exact ⟨x, hx, y, hy, z, hz, rfl, rfl, rfl⟩

theorem mem_edge_positions (x y z : ℕ) :
    (x, y, z) ∈ edge_positions ↔
      x < SIZE ∧ y < SIZE ∧ z < SIZE ∧
        (x = 0 ∨ x = SIZE - 1 ∨ y = 0 ∨ y = SIZE - 1 ∨ z = 0 ∨ z = SIZE - 1) := by
  simp only [edge_positions, List.mem_flatMap, List.mem_range, List.mem_cons,
    List.mem_singleton, List.not_mem_nil, or_false, Prod.mk.injEq, SIZE]
  constructor
  · rintro ⟨a, ha, b, hb, h⟩
    rcases h with ⟨h1, h2, h3⟩ | ⟨h1, h2, h3⟩ | ⟨h1, h2, h3⟩ | ⟨h1, h2, h3⟩ |
      ⟨h1, h2, h3⟩ | ⟨h1, h2, h3⟩ <;> omega
  · rintro ⟨hx, hy, hz, h⟩
    rcases h with h | h | h | h | h | h
    · exact ⟨y, hy, z, hz, Or.inr (Or.inr (Or.inl ⟨h, rfl, rfl⟩))⟩
    · exact ⟨y, hy, z, hz, Or.inr (Or.inr (Or.inr (Or.inr (Or.inr ⟨h, rfl, rfl⟩))))⟩
    · exact ⟨x, hx, z, hz, Or.inr (Or.inl ⟨rfl, h, rfl⟩)⟩
    · exact ⟨x, hx, z, hz, Or.inr (Or.inr (Or.inr (Or.inr (Or.inl ⟨rfl, h, rfl⟩))))⟩
    · exact ⟨x, hx, y, hy, Or.inl ⟨rfl, rfl, h⟩⟩
    · exact ⟨x, hx, y, hy, Or.inr (Or.inr (Or.inr (Or.inl ⟨rfl, rfl, h⟩)))⟩

theorem apply_edge_vacuum_apply (g : Grid3) (x y z : ℕ) :
    apply_edge_vacuum g (x, y, z) =
      if (x, y, z) ∈ edge_positions then Atom.Gas (0, QVec3.zero) else g (x, y, z) := by
  unfold apply_edge_vacuum
  exact writeAll_apply ..

theorem qToUsize_of_neg (q : ℚ) (h : q < 0) : qToUsize q = 0 := by
  simp [qToUsize, h]

theorem qToUsize_eq (q : ℚ) (n : ℕ) (h1 : (n : ℚ) ≤ q) (h2 : q < n + 1)
    (h3 : n < USIZE_MAX) : qToUsize q = n := by
  have hq : ¬ q < 0 := not_lt.mpr (le_trans (by positivity) h1)
  have hfloor : ⌊q⌋ = (n : ℤ) := by
    rw [Int.floor_eq_iff]
    constructor
    · exact_mod_cast h1
    · push_cast
      exact h2
  simp [qToUsize, hq, hfloor, Nat.min_eq_left (le_of_lt h3)]

theorem rle_apply (g : Grid3) (px py pz : ℕ) (q : Pos) :
    reach_local_equilibrium g px py pz q =
      if q ∈ block_positions px py pz ∧ (g q).isGas = true then
        Atom.Gas (((mut_gases_2x2x2 g px py pz).map Prod.fst).sum /
            ((mut_gases_2x2x2 g px py pz).length : ℚ),
          QVec3.divScalar (((mut_gases_2x2x2 g px py pz).map Prod.snd).foldl QVec3.add QVec3.zero)
            ((mut_gases_2x2x2 g px py pz).length : ℚ))
      else g q := by
  unfold reach_local_equilibrium
  rw [writeAll_apply]
  by_cases h : q ∈ block_positions px py pz ∧ (g q).isGas = true
  · rw [if_pos (List.mem_filter.mpr h), if_pos h]
  · rw [if_neg (fun hc => h (List.mem_filter.mp hc)), if_neg h]

theorem filterMap_payload_of_averaged (L : List Pos) (g g2 : Grid3) (c : ℚ × QVec3)
    (h : ∀ q ∈ L, g2 q = if (g q).isGas = true then Atom.Gas c else g q) :
    L.filterMap (fun q => (g2 q).gasPayload) =
      List.replicate (L.filter fun q => (g q).isGas).length c := by
  induction L with
  | nil => simp
  | cons p L ih =>
    have hp := h p (List.mem_cons_self ..)
    have hrest : ∀ q ∈ L, g2 q = if (g q).isGas = true then Atom.Gas c else g q :=
      fun q hq => h q (List.mem_cons_of_mem _ hq)
    by_cases hg : (g p).isGas = true
    · simp only [List.filterMap_cons, List.filter_cons, hp, if_pos hg, hg,
        Atom.gasPayload_gas, if_true, List.length_cons, List.replicate_succ]
      rw [ih hrest]
    · have hnone : (g2 p).gasPayload = none := by
        rw [hp, if_neg hg]
        exact Atom.gasPayload_of_not_gas _ (Bool.not_eq_true _ ▸ hg)
      simp only [List.filterMap_cons, hnone, List.filter_cons, hg]
      simp only [Bool.false_eq_true, if_false]
      exact ih hrest

theorem length_filterMap_payload (L : List Pos) (g : Grid3) :
    (L.filterMap fun q => (g q).gasPayload).length =
      (L.filter fun q => (g q).isGas).length := by
  induction L with
  | nil => simp
  | cons p L ih =>
    simp only [List.filterMap_cons, List.filter_cons]
    cases hp : g p with
    | Solid c => simpa [Atom.gasPayload, Atom.isGas] using ih
    | Gas pay => simpa [Atom.gasPayload, Atom.isGas] using ih
    | GasSource v => simpa [Atom.gasPayload, Atom.isGas] using ih

theorem foldl_grid_preserve {α : Type} (Q : Grid3 → Prop) (f : Grid3 → α → Grid3)
    (hf : ∀ h a, Q h → Q (f h a)) :
    ∀ (l : List α) (h : Grid3), Q h → Q (l.foldl f h) := by
  intro l
  induction l with
  | nil => intro h hh; exact hh
  | cons a l ih => intro h hh; exact ih _ (hf h a hh)

theorem add_gas_at_solid (h : Grid3) (d : Pos) (pay : ℚ × QVec3) (q : Pos) (col : QVec4)
    (hq : h q = Atom.Solid col) : add_gas_at h d pay q = Atom.Solid col := by
  unfold add_gas_at
  cases hd : h d with
  | Gas dpay =>
    show update3 h d (sum_gas dpay pay) q = Atom.Solid col
    rw [update3_apply]
    by_cases he : q = d
    · rw [he, hd] at hq; cases hq
    · rw [if_neg he]; exact hq
  | Solid c => exact hq
  | GasSource v => exact hq

theorem rle_solid (g : Grid3) (px py pz : ℕ) (q : Pos) (col : QVec4)
    (hq : g q = Atom.Solid col) : reach_local_equilibrium g px py pz q = Atom.Solid col := by
  rw [rle_apply, if_neg, hq]
  rintro ⟨-, hgas⟩
  rw [hq] at hgas
  cases hgas

theorem extreme_of_extremeCount (x y z : ℕ) (h : extremeCount x y z ≠ 0) :
    x = 0 ∨ x = SIZE - 1 ∨ y = 0 ∨ y = SIZE - 1 ∨ z = 0 ∨ z = SIZE - 1 := by
  unfold extremeCount at h
  split_ifs at h with h1 h2 h3 <;> tauto

/-- C2.  `sum_gas` on payloads `(p1, v1)` and `(p2, v2)` returns a `Gas` atom with
pressure exactly `p1 + p2` and velocity exactly `v1*p1 + v2*p2` componentwise,
with no division by the total pressure. -/
theorem sum_gas_momentum_weighted (p1 p2 : ℚ) (v1 v2 : QVec3) :
    sum_gas (p1, v1) (p2, v2) =
      Atom.Gas (p1 + p2,
        ⟨v1.x * p1 + v2.x * p2, v1.y * p1 + v2.y * p2, v1.z * p1 + v2.z * p2⟩) := rfl

/-- C1.  For a 2×2×2 equilibrium block with at least one Gas cell: every Gas cell
of the block is set to the average payload (pressure sum `S` over gas count `n`
and componentwise velocity sum over `n`), Solid and GasSource cells of the block
are left untouched, and the total pressure over the block's Gas cells is
unchanged (`n · (S/n) = S` exactly, in the rational model). -/
theorem spread_gas_block_equilibrium (g : Grid3) (px py pz : ℕ)
    (h : 1 ≤ (mut_gases_2x2x2 g px py pz).length) :
    (∀ q ∈ block_positions px py pz, ∀ pay : ℚ × QVec3, g q = Atom.Gas pay →
      reach_local_equilibrium g px py pz q =
        Atom.Gas (((mut_gases_2x2x2 g px py pz).map Prod.fst).sum /
            ((mut_gases_2x2x2 g px py pz).length : ℚ),
          QVec3.divScalar
            (((mut_gases_2x2x2 g px py pz).map Prod.snd).foldl QVec3.add QVec3.zero)
            ((mut_gases_2x2x2 g px py pz).length : ℚ))) ∧
    (∀ q ∈ block_positions px py pz, (g q).isGas = false →
      reach_local_equilibrium g px py pz q = g q) ∧
    ((mut_gases_2x2x2 (reach_local_equilibrium g px py pz) px py pz).map Prod.fst).sum =
      ((mut_gases_2x2x2 g px py pz).map Prod.fst).sum := by
  refine ⟨?_, ?_, ?_⟩
  · intro q hq pay hpay
    rw [rle_apply, if_pos ⟨hq, by rw [hpay]; rfl⟩]
  · intro q hq hng
    rw [rle_apply, if_neg]
    rintro ⟨-, hg⟩
    rw [hng] at hg
    cases hg
  · have hchar : ∀ q ∈ block_positions px py pz,
        reach_local_equilibrium g px py pz q =
          if (g q).isGas = true then
            Atom.Gas (((mut_gases_2x2x2 g px py pz).map Prod.fst).sum /
                ((mut_gases_2x2x2 g px py pz).length : ℚ),
              QVec3.divScalar
                (((mut_gases_2x2x2 g px py pz).map Prod.snd).foldl QVec3.add QVec3.zero)
                ((mut_gases_2x2x2 g px py pz).length : ℚ))
          else g q := by
      intro q hq
      rw [rle_apply]
      by_cases hg : (g q).isGas = true
      · rw [if_pos ⟨hq, hg⟩, if_pos hg]
      · rw [if_neg (fun hc => hg hc.2), if_neg hg]
    have hlen : (List.filter (fun q => (g q).isGas) (block_positions px py pz)).length =
        (mut_gases_2x2x2 g px py pz).length :=
      (length_filterMap_payload (block_positions px py pz) g).symm
    have hn : ((mut_gases_2x2x2 g px py pz).length : ℚ) ≠ 0 :=
      Nat.cast_ne_zero.mpr (by omega)
    show ((mut_gases_2x2x2 (reach_local_equilibrium g px py pz) px py pz).map Prod.fst).sum = _
    rw [show mut_gases_2x2x2 (reach_local_equilibrium g px py pz) px py pz =
        (block_positions px py pz).filterMap
          (fun q => (reach_local_equilibrium g px py pz q).gasPayload) from rfl]
    rw [filterMap_payload_of_averaged _ g _ _ hchar]
    rw [List.map_replicate, List.sum_replicate, hlen, nsmul_eq_mul, ← mul_div_assoc]
    exact mul_div_cancel_left₀ _ hn

/-- C1 witness: a concrete block (origin 0) holding seven Gas cells (one of
pressure 8) and one Solid cell. -/
theorem spread_gas_block_equilibrium_witness :
    1 ≤ (mut_gases_2x2x2 gBlockTest 0 0 0).length ∧
    ((∀ q ∈ block_positions 0 0 0, ∀ pay : ℚ × QVec3, gBlockTest q = Atom.Gas pay →
      reach_local_equilibrium gBlockTest 0 0 0 q =
        Atom.Gas (((mut_gases_2x2x2 gBlockTest 0 0 0).map Prod.fst).sum /
            ((mut_gases_2x2x2 gBlockTest 0 0 0).length : ℚ),
          QVec3.divScalar
            (((mut_gases_2x2x2 gBlockTest 0 0 0).map Prod.snd).foldl QVec3.add QVec3.zero)
            ((mut_gases_2x2x2 gBlockTest 0 0 0).length : ℚ))) ∧
    (∀ q ∈ block_positions 0 0 0, (gBlockTest q).isGas = false →
      reach_local_equilibrium gBlockTest 0 0 0 q = gBlockTest q) ∧
    ((mut_gases_2x2x2 (reach_local_equilibrium gBlockTest 0 0 0) 0 0 0).map Prod.fst).sum =
      ((mut_gases_2x2x2 gBlockTest 0 0 0).map Prod.fst).sum) :=
  ⟨by decide, spread_gas_block_equilibrium gBlockTest 0 0 0 (by decide)⟩

/-- C10.  A 2×2×2 block with no Gas cell at all is left completely unchanged by
the local-equilibrium operation: the averages are computed but written to no
cell, and the total function model never aborts (the source's emptiness check is
a `debug_assert_ne!`, compiled out in release builds). -/
theorem reach_local_equilibrium_empty_block (g : Grid3) (px py pz : ℕ)
    (h : mut_gases_2x2x2 g px py pz = []) :
    reach_local_equilibrium g px py pz = g := by
  funext q
  rw [rle_apply]
  by_cases hc : q ∈ block_positions px py pz ∧ (g q).isGas = true
  · exfalso
    obtain ⟨pay, hpay⟩ := (Atom.isGas_iff _).mp hc.2
    have hmem : pay ∈ mut_gases_2x2x2 g px py pz := by
      unfold mut_gases_2x2x2
      exact List.mem_filterMap.mpr ⟨q, hc.1, by rw [hpay]; rfl⟩
    rw [h] at hmem
    cases hmem
  · rw [if_neg hc]

/-- C10 witness: a block of the all-solid grid has no gas and is unchanged. -/
theorem reach_local_equilibrium_empty_block_witness :
    mut_gases_2x2x2 gAllSolid 0 0 0 = [] ∧
      reach_local_equilibrium gAllSolid 0 0 0 = gAllSolid :=
  ⟨rfl, reach_local_equilibrium_empty_block gAllSolid 0 0 0 rfl⟩

/-- C3 counterexample: the claim asserts some cell with exactly one extreme
coordinate (a boundary-face interior point) is left unmodified by
`apply_edge_vacuum`; on the all-solid grid every such cell is overwritten with
vacuum gas, so no such cell exists.  (The `TODO` comment above the loops is
stale: the loops cover whole boundary planes, not just edge lines.) -/
theorem apply_edge_vacuum_face_gap_counterexample :
    ¬ ∃ x y z : ℕ, x < SIZE ∧ y < SIZE ∧ z < SIZE ∧ extremeCount x y z = 1 ∧
        apply_edge_vacuum gAllSolid (x, y, z) = gAllSolid (x, y, z) := by
  rintro ⟨x, y, z, hx, hy, hz, hone, heq⟩
  have hext := extreme_of_extremeCount x y z (by omega)
  rw [apply_edge_vacuum_apply,
    if_pos ((mem_edge_positions x y z).mpr ⟨hx, hy, hz, hext⟩)] at heq
  have hcontra : Atom.Gas (0, QVec3.zero) = Atom.Solid ⟨1/2, 1/2, 1/2, 1⟩ := heq
  cases hcontra

/-- C3 amended: `apply_edge_vacuum` does clear the interior points of every
boundary face — every in-bounds cell with exactly one coordinate at an extreme
(0 or `SIZE-1`) is set to zero-pressure, zero-velocity gas. -/
theorem apply_edge_vacuum_clears_faces (g : Grid3) (x y z : ℕ)
    (hx : x < SIZE) (hy : y < SIZE) (hz : z < SIZE)
    (hone : extremeCount x y z = 1) :
    apply_edge_vacuum g (x, y, z) = Atom.Gas (0, QVec3.zero) := by
  have hext := extreme_of_extremeCount x y z (by omega)
  rw [apply_edge_vacuum_apply,
    if_pos ((mem_edge_positions x y z).mpr ⟨hx, hy, hz, hext⟩)]

/-- C3 witness: the face-interior cell (0, 5, 7) is cleared. -/
theorem apply_edge_vacuum_clears_faces_witness :
    extremeCount 0 5 7 = 1 ∧
      apply_edge_vacuum gAllSolid (0, 5, 7) = Atom.Gas (0, QVec3.zero) :=
  ⟨by decide, apply_edge_vacuum_clears_faces gAllSolid 0 5 7
    (by decide) (by decide) (by decide) (by decide)⟩

/-- C4.  After `apply_edge_vacuum` every in-bounds cell with at least one
coordinate equal to 0 or `SIZE-1` holds `Gas((0.0, Vec3::ZERO))`, and the
operation is idempotent. -/
theorem apply_edge_vacuum_boundary_idempotent (g : Grid3) (x y z : ℕ)
    (hx : x < SIZE) (hy : y < SIZE) (hz : z < SIZE)
    (h : x = 0 ∨ x = SIZE - 1 ∨ y = 0 ∨ y = SIZE - 1 ∨ z = 0 ∨ z = SIZE - 1) :
    apply_edge_vacuum g (x, y, z) = Atom.Gas (0, QVec3.zero) ∧
      apply_edge_vacuum (apply_edge_vacuum g) = apply_edge_vacuum g := by
  constructor
  · rw [apply_edge_vacuum_apply, if_pos ((mem_edge_positions x y z).mpr ⟨hx, hy, hz, h⟩)]
  · funext q
    obtain ⟨a, b, c⟩ := q
    rw [apply_edge_vacuum_apply]
    by_cases hm : (a, b, c) ∈ edge_positions
    · rw [if_pos hm, apply_edge_vacuum_apply, if_pos hm]
    · rw [if_neg hm]

/-- C4 witness: the boundary cell (0, 5, 7) of the all-solid grid. -/
theorem apply_edge_vacuum_boundary_idempotent_witness :
    apply_edge_vacuum gAllSolid (0, 5, 7) = Atom.Gas (0, QVec3.zero) ∧
      apply_edge_vacuum (apply_edge_vacuum gAllSolid) = apply_edge_vacuum gAllSolid :=
  apply_edge_vacuum_boundary_idempotent gAllSolid 0 5 7
    (by decide) (by decide) (by decide) (Or.inl rfl)

/-- C5.  The two checkerboard phases of `spread_gas` run under mutually
exclusive step-counter conditions (`c % 4 = 0` for the even-aligned pass and
`c % 4 = SPREAD_FREQUENCY = 2` for the odd-aligned pass, which can never hold
together), so a single `step()` call — which invokes `spread_gas` exactly once
with the current counter — runs at most one phase and no cell is updated by
both phases in the same step. -/
theorem spread_gas_phase_exclusive (g : Grid3) (c : ℕ) :
    (c % (SPREAD_FREQUENCY * 2) = 0 → spread_gas g c = spread_pass even_starts g) ∧
    (c % (SPREAD_FREQUENCY * 2) = SPREAD_FREQUENCY → spread_gas g c = spread_pass odd_starts g) ∧
    (c % (SPREAD_FREQUENCY * 2) ≠ 0 ∧ c % (SPREAD_FREQUENCY * 2) ≠ SPREAD_FREQUENCY →
      spread_gas g c = g) ∧
    ¬ (c % (SPREAD_FREQUENCY * 2) = 0 ∧ c % (SPREAD_FREQUENCY * 2) = SPREAD_FREQUENCY) ∧
    (step g c).1 = apply_edge_vacuum (spread_gas (step_gas_source (simulate_gas_velocity g)) c) := by
  refine ⟨?_, ?_, ?_, ?_, by simp only [step]⟩
  · intro h
    rw [spread_gas, if_pos h]
  · intro h
    have h0 : c % (SPREAD_FREQUENCY * 2) ≠ 0 := by rw [h]; decide
    rw [spread_gas, if_neg h0, if_pos h]
  · rintro ⟨h0, hs⟩
    rw [spread_gas, if_neg h0, if_neg hs]
  · rintro ⟨h0, hs⟩
    rw [h0] at hs
    exact (by decide : (0 : ℕ) ≠ SPREAD_FREQUENCY) hs

/-- C6 (failing-input evaluation).  The gas cell at the in-bounds position
(0,0,0) with velocity (-1,0,0) passes the `0.001` velocity threshold, yet the
destination formula of `simulate_gas_velocity` yields the source cell itself:
the x component of the offset center is `0 + 0.5 - 1 = -0.5`, and Rust's
`f32 as usize` cast saturates it to 0 — contradicting the code's own
`debug_assert_ne!(src_pos, dst_pos)` and the claim that the destination is
never the source.  All arithmetic on this input is exact in `f32`, so the
rational model computes the same values the Rust code does. -/
theorem velocity_dest_saturates_at_boundary :
    ¬ (QVec3.lengthSq ⟨-1, 0, 0⟩ < 1 / 1000) ∧
      advect_dest (0, 0, 0) ⟨-1, 0, 0⟩ = ((0, 0, 0) : Pos) := by
  have h1 : Rat.sqrt 1 = 1 := by simp
  have hsq : QVec3.lengthSq ⟨-1, 0, 0⟩ = 1 := by norm_num [QVec3.lengthSq]
  have hnorm : QVec3.normalize ⟨-1, 0, 0⟩ = ⟨-1, 0, 0⟩ := by
    unfold QVec3.normalize
    rw [hsq, h1]
    norm_num
  constructor
  · rw [hsq]
    norm_num
  · simp only [advect_dest, hnorm, QVec3.as_usizevec3, Prod.mk.injEq]
    refine ⟨?_, ?_, ?_⟩
    · exact qToUsize_of_neg _ (by push_cast; norm_num)
    · exact qToUsize_eq _ 0 (by push_cast; norm_num) (by push_cast; norm_num)
        (by norm_num [USIZE_MAX])
    · exact qToUsize_eq _ 0 (by push_cast; norm_num) (by push_cast; norm_num)
        (by norm_num [USIZE_MAX])

/-- C7.  Every in-bounds gas cell passing the velocity threshold is collected
for zeroing and holds `Gas((0.0, Vec3::ZERO))` after the zeroing pass,
irrespective of its transfer's fate; `simulate_gas_velocity` applies the
transfer pass only after the zeroing pass (so a zeroed cell can still receive
an incoming payload); and every recorded transfer targets an in-bounds cell
that held `Gas` — transfers toward out-of-bounds, `Solid` or `GasSource`
destinations are never recorded, i.e. their payload is discarded. -/
theorem simulate_gas_velocity_zeroes_sources (g : Grid3) (x y z : ℕ) (pay : ℚ × QVec3)
    (hx : x < SIZE) (hy : y < SIZE) (hz : z < SIZE)
    (hg : g (x, y, z) = Atom.Gas pay)
    (hv : ¬ pay.2.lengthSq < 1 / 1000) :
    (x, y, z) ∈ gases_to_zero g ∧
    zero_pass g (x, y, z) = Atom.Gas (0, QVec3.zero) ∧
    simulate_gas_velocity g = add_pass (zero_pass g) (gases_to_add g) ∧
    (∀ e ∈ gases_to_add g,
      (e.1.1 < SIZE ∧ e.1.2.1 < SIZE ∧ e.1.2.2 < SIZE) ∧ (g e.1).isGas = true) := by
  have hmem : (x, y, z) ∈ gases_to_zero g := by
    unfold gases_to_zero
    refine List.mem_filter.mpr ⟨(mem_allPositions _).mpr ⟨hx, hy, hz⟩, ?_⟩
    show fast_gas (g (x, y, z)) = true
    rw [hg]
    show (if pay.2.lengthSq < 1 / 1000 then false else true) = true
    rw [if_neg hv]
  refine ⟨hmem, ?_, rfl, ?_⟩
  · unfold zero_pass
    rw [writeAll_apply, if_pos hmem]
  · intro e he
    unfold gases_to_add at he
    obtain ⟨p, hp, hfp⟩ := List.mem_filterMap.mp he
    have hfp1 : (match g p with
      | Atom.Gas pay =>
        if pay.2.lengthSq < 1 / 1000 then none
        else
          if (advect_dest p pay.2).1 < SIZE ∧ (advect_dest p pay.2).2.1 < SIZE ∧
              (advect_dest p pay.2).2.2 < SIZE then
            match g (advect_dest p pay.2) with
            | Atom.Gas _ => some (advect_dest p pay.2, pay)
            | _ => none
          else none
      | _ => none) = some e := hfp
    cases hgp : g p with
    | Solid c => rw [hgp] at hfp1; cases hfp1
    | GasSource v => rw [hgp] at hfp1; cases hfp1
    | Gas pay2 =>
      rw [hgp] at hfp1
      have hfp2 : (if pay2.2.lengthSq < 1 / 1000 then none
          else
            if (advect_dest p pay2.2).1 < SIZE ∧ (advect_dest p pay2.2).2.1 < SIZE ∧
                (advect_dest p pay2.2).2.2 < SIZE then
              match g (advect_dest p pay2.2) with
              | Atom.Gas _ => some (advect_dest p pay2.2, pay2)
              | _ => none
            else none) = some e := hfp1
      by_cases hv2 : pay2.2.lengthSq < 1 / 1000
      · rw [if_pos hv2] at hfp2; cases hfp2
      · rw [if_neg hv2] at hfp2
        by_cases hb : (advect_dest p pay2.2).1 < SIZE ∧ (advect_dest p pay2.2).2.1 < SIZE ∧
            (advect_dest p pay2.2).2.2 < SIZE
        · rw [if_pos hb] at hfp2
          cases hgd : g (advect_dest p pay2.2) with
          | Solid c => rw [hgd] at hfp2; cases hfp2
          | GasSource v => rw [hgd] at hfp2; cases hfp2
          | Gas dpay =>
            rw [hgd] at hfp2
            have he2 : (advect_dest p pay2.2, pay2) = e := Option.some.inj hfp2
            rw [← he2]
            refine ⟨hb, ?_⟩
            rw [hgd]
            rfl
        · rw [if_neg hb] at hfp2; cases hfp2

/-- C7 witness: a gas cell at (5,5,5) moving into a solid neighborhood. -/
theorem simulate_gas_velocity_zeroes_sources_witness :
    (5, 5, 5) ∈ gases_to_zero gMoveTest ∧
    zero_pass gMoveTest (5, 5, 5) = Atom.Gas (0, QVec3.zero) ∧
    simulate_gas_velocity gMoveTest = add_pass (zero_pass gMoveTest) (gases_to_add gMoveTest) ∧
    (∀ e ∈ gases_to_add gMoveTest,
      (e.1.1 < SIZE ∧ e.1.2.1 < SIZE ∧ e.1.2.2 < SIZE) ∧ (gMoveTest e.1).isGas = true) :=
  simulate_gas_velocity_zeroes_sources gMoveTest 5 5 5 (1, ⟨1, 0, 0⟩)
    (by decide) (by decide) (by decide) rfl (by norm_num [QVec3.lengthSq])

/-- C8.  When deserialization fails (`load none`), every in-bounds cell of the
resulting grid is `Gas((0.0, Vec3::ZERO))` except the five inset corner cells
(1,1,1), (SIZE-2,1,1), (1,SIZE-2,1), (1,1,SIZE-2), (SIZE-2,SIZE-2,SIZE-2),
which are `Solid`; `load` is total, so no error reaches the caller. -/
theorem load_failure_default_grid (p : Pos)
    (hx : p.1 < SIZE) (hy : p.2.1 < SIZE) (hz : p.2.2 < SIZE) :
    (p ∉ ([(1, 1, 1), (SIZE - 2, 1, 1), (1, SIZE - 2, 1), (1, 1, SIZE - 2),
        (SIZE - 2, SIZE - 2, SIZE - 2)] : List Pos) →
      load none p = Atom.Gas (0, QVec3.zero)) ∧
    (p ∈ ([(1, 1, 1), (SIZE - 2, 1, 1), (1, SIZE - 2, 1), (1, 1, SIZE - 2),
        (SIZE - 2, SIZE - 2, SIZE - 2)] : List Pos) →
      ∃ c, load none p = Atom.Solid c) := by
  constructor
  · intro hnot
    simp only [List.mem_cons, List.not_mem_nil, or_false, not_or] at hnot
    obtain ⟨h1, h2, h3, h4, h5⟩ := hnot
    show default_atoms p = _
    unfold default_atoms
    rw [update3_apply, if_neg h5, update3_apply, if_neg h4, update3_apply, if_neg h3,
      update3_apply, if_neg h2, update3_apply, if_neg h1]
  · intro hmem
    simp only [List.mem_cons, List.not_mem_nil, or_false] at hmem
    rcases hmem with rfl | rfl | rfl | rfl | rfl
    · exact ⟨⟨1/2, 1/2, 1/2, 1⟩, rfl⟩
    · exact ⟨⟨1, 0, 0, 1⟩, rfl⟩
    · exact ⟨⟨0, 1, 0, 1⟩, rfl⟩
    · exact ⟨⟨0, 0, 1, 1⟩, rfl⟩
    · exact ⟨⟨1, 1, 1, 1⟩, rfl⟩

/-- C8 witness: the ordinary cell (4,4,4) and its default value. -/
theorem load_failure_default_grid_witness :
    (((4, 4, 4) : Pos) ∉ ([(1, 1, 1), (SIZE - 2, 1, 1), (1, SIZE - 2, 1), (1, 1, SIZE - 2),
        (SIZE - 2, SIZE - 2, SIZE - 2)] : List Pos) →
      load none (4, 4, 4) = Atom.Gas (0, QVec3.zero)) ∧
    (((4, 4, 4) : Pos) ∈ ([(1, 1, 1), (SIZE - 2, 1, 1), (1, SIZE - 2, 1), (1, 1, SIZE - 2),
        (SIZE - 2, SIZE - 2, SIZE - 2)] : List Pos) →
      ∃ c, load none (4, 4, 4) = Atom.Solid c) :=
  load_failure_default_grid (4, 4, 4) (by decide) (by decide) (by decide)

/-- C9.  One `step()` never modifies an interior solid cell: velocity advection,
source injection and spreading write only to cells currently holding `Gas`, and
the edge vacuum writes only boundary cells. -/
theorem step_preserves_interior_solid (g : Grid3) (c : ℕ) (x y z : ℕ) (col : QVec4)
    (hx1 : 1 ≤ x) (hx2 : x ≤ SIZE - 2) (hy1 : 1 ≤ y) (hy2 : y ≤ SIZE - 2)
    (hz1 : 1 ≤ z) (hz2 : z ≤ SIZE - 2)
    (hsol : g (x, y, z) = Atom.Solid col) :
    (step g c).1 (x, y, z) = Atom.Solid col := by
  have hzero : zero_pass g (x, y, z) = Atom.Solid col := by
    unfold zero_pass
    rw [writeAll_apply, if_neg, hsol]
    intro hmem
    have hpred : fast_gas (g (x, y, z)) = true := (List.mem_filter.mp hmem).2
    rw [hsol] at hpred
    cases hpred
  have hA : simulate_gas_velocity g (x, y, z) = Atom.Solid col := by
    show ((gases_to_add g).foldl (fun h2 e => add_gas_at h2 e.1 e.2) (zero_pass g)) (x, y, z) =
      Atom.Solid col
    exact foldl_grid_preserve (fun h => h (x, y, z) = Atom.Solid col) _
      (fun h e hh => add_gas_at_solid h e.1 e.2 (x, y, z) col hh) _ _ hzero
  have hB : step_gas_source (simulate_gas_velocity g) (x, y, z) = Atom.Solid col := by
    unfold step_gas_source
    exact foldl_grid_preserve (fun h => h (x, y, z) = Atom.Solid col) _
      (fun h s hh => add_gas_at_solid h _ _ (x, y, z) col hh) _ _ hA
  have hpass : ∀ (xs : List ℕ) (h : Grid3), h (x, y, z) = Atom.Solid col →
      spread_pass xs h (x, y, z) = Atom.Solid col := by
    intro xs h hh
    unfold spread_pass
    refine foldl_grid_preserve (fun h2 => h2 (x, y, z) = Atom.Solid col) _ ?_ xs h hh
    intro h2 a hh2
    refine foldl_grid_preserve (fun h3 => h3 (x, y, z) = Atom.Solid col) _ ?_ xs h2 hh2
    intro h3 b hh3
    refine foldl_grid_preserve (fun h4 => h4 (x, y, z) = Atom.Solid col) _ ?_ xs h3 hh3
    intro h4 d hh4
    exact rle_solid h4 a b d (x, y, z) col hh4
  have hC : spread_gas (step_gas_source (simulate_gas_velocity g)) c (x, y, z) =
      Atom.Solid col := by
    unfold spread_gas
    split_ifs with h1 h2
    · exact hpass _ _ hB
    · exact hpass _ _ hB
    · exact hB
  simp only [step]
  rw [apply_edge_vacuum_apply, if_neg, hC]
  intro hmem
  have hS : SIZE = 32 := rfl
  obtain ⟨-, -, -, hd⟩ := (mem_edge_positions x y z).mp hmem
  rcases hd with h | h | h | h | h | h <;> omega

/-- C9 witness: the interior solid cell (5,5,5) of the all-solid grid survives a step. -/
theorem step_preserves_interior_solid_witness :
    gAllSolid (5, 5, 5) = Atom.Solid ⟨1/2, 1/2, 1/2, 1⟩ ∧
      (step gAllSolid 0).1 (5, 5, 5) = Atom.Solid ⟨1/2, 1/2, 1/2, 1⟩ :=
  ⟨rfl, step_preserves_interior_solid gAllSolid 0 5 5 5 ⟨1/2, 1/2, 1/2, 1⟩
    (by decide) (by decide) (by decide) (by decide) (by decide) (by decide) rfl⟩

/-- C5 witness: counters 0, 2 and 1 select the even pass, the odd pass and no
pass respectively. -/
theorem spread_gas_phase_exclusive_witness :
    spread_gas gAllSolid 0 = spread_pass even_starts gAllSolid ∧
      spread_gas gAllSolid 2 = spread_pass odd_starts gAllSolid ∧
      spread_gas gAllSolid 1 = gAllSolid :=
  ⟨(spread_gas_phase_exclusive gAllSolid 0).1 (by decide),
   (spread_gas_phase_exclusive gAllSolid 2).2.1 (by decide),
   (spread_gas_phase_exclusive gAllSolid 1).2.2.1 ⟨by decide, by decide⟩⟩

end GameGrid
